import Mathlib

/-!
Verification development for the `common-utils` repository.

The development shallowly embeds the `stack_ip::StackParser` state machine
(src/src/stack_ip/parsers/StackParser.h) and the `IntrusiveMap` intrusive
hash map (template header), and proves the specified properties about them.

The per-protocol layer modules (Ethernet, Vlan, Gre, IPv4, Udp, Sctp) and
the binio packet reader (the cursor) are declared and used by
StackParser.h but their sources are not part of the snapshot; those parts
are modelled from the specification, as marked on each definition.
-/

namespace StackIp

/-- The closed protocol enumeration of the stack parser, with the `END`
sentinel meaning both clean termination and validation failure. -/
inductive Protocol where
  | L2_ETHERNET
  | L2_VLAN
  | L3_IPv4
  | L4_GRE
  | L4_UDP
  | L4_SCTP
  | END
  deriving DecidableEq, Repr

/-- Modelled from the spec: the bounds-checked byte cursor of the binio
packet reader, `{ position, remaining }`, whose sources are not in the
snapshot.  `position` is the byte offset of the current layer start and
`remaining` the number of bytes from there to the buffer end. -/
structure Cursor where
  position : Nat
  remaining : Nat
  deriving DecidableEq, Repr

/-- Result tag of a cursor advance: `Ok` or `OutOfBounds`. -/
inductive AdvanceResult where
  | Ok
  | OutOfBounds
  deriving DecidableEq, Repr

/-- Modelled from the spec: `advance(length)` fails with `OutOfBounds`
(and no state change) if `length > remaining`; on success it moves
`position += length` and `remaining -= length`. -/
def Cursor.advance (c : Cursor) (length : Nat) : AdvanceResult × Cursor :=
  if length > c.remaining then
    (AdvanceResult.OutOfBounds, c)
  else
    (AdvanceResult.Ok, { position := c.position + length, remaining := c.remaining - length })

/-- A `binio::MCArea` view: a (pointer, length) pair borrowing from the
backing buffer.  The pointer is modelled as a byte offset into the buffer;
`none` models the null pointer. -/
structure MCArea where
  ptr : Option Nat
  length : Nat
  deriving DecidableEq, Repr

/-- Modelled from the spec: `available_area()` of the packet reader, the
view of the remaining buffer from the current position to the buffer end
(`remaining_len()` bytes). -/
def Cursor.available_area (c : Cursor) : MCArea :=
  { ptr := some c.position, length := c.remaining }

/-- Modelled from the spec: the capability set every protocol layer module
implements, each a pure function of the cursor.  `validate` must not
advance the cursor; `next_protocol` inspects the header via peek only. -/
structure ProtocolModule where
  validate : Cursor → Bool
  length_header : Cursor → Nat
  length_payload : Cursor → Nat
  next_protocol : Cursor → Protocol

/-- The six protocol layer modules the parser dispatches over. -/
structure Modules where
  ethernet : ProtocolModule
  vlan : ProtocolModule
  ipv4 : ProtocolModule
  gre : ProtocolModule
  udp : ProtocolModule
  sctp : ProtocolModule

/-- Modelled from the spec: the `next` step of a protocol module as invoked by
`StackParser::next` — (1) identify the next protocol via peek (cursor
unchanged), (2) advance the cursor past the current header.  The
per-protocol sources are not in the snapshot. -/
def ProtocolModule.step (m : ProtocolModule) (c : Cursor) : Protocol × Cursor :=
  let np := m.next_protocol c
  let adv := c.advance (m.length_header c)
  (np, adv.2)

/-- The stack parser state: the current protocol tag and the cursor
(`StackParser` inherits the reader; `proto` is its only own field). -/
structure StackParser where
  proto : Protocol
  cursor : Cursor
  deriving DecidableEq, Repr

/-- The constructor `StackParser(binio::MCArea pkt)`: reader over the
buffer (cursor at offset 0, all bytes remaining — modelled from the spec,
the reader sources being absent) and `proto = Protocol::END`. -/
def StackParser.construct (buffer_length : Nat) : StackParser :=
  { proto := Protocol.END, cursor := { position := 0, remaining := buffer_length } }

/-- The `result` computed by the switch in `StackParser::validate_packet`:
`validate` of the dispatched module, or `false` in the default case. -/
def moduleValidate (M : Modules) (new_proto : Protocol) (c : Cursor) : Bool :=
  match new_proto with
  | Protocol.L2_ETHERNET => M.ethernet.validate c
  | Protocol.L2_VLAN => M.vlan.validate c
  | Protocol.L3_IPv4 => M.ipv4.validate c
  | Protocol.L4_GRE => M.gre.validate c
  | Protocol.L4_UDP => M.udp.validate c
  | Protocol.L4_SCTP => M.sctp.validate c
  | Protocol.END => false

/-- `StackParser::validate_packet(new_proto)`: dispatch `validate` of the module
named by the tag; if the result is false the protocol becomes `END`. -/
def StackParser.validate_packet (M : Modules) (new_proto : Protocol) (c : Cursor) : Protocol :=
  if moduleValidate M new_proto c then new_proto else Protocol.END

/-- `StackParser::parse(proto_first)`: sets
`proto = validate_packet(proto_first)` and returns `proto != END`.
Returns the boolean result paired with the updated parser. -/
def StackParser.parse (M : Modules) (s : StackParser) (proto_first : Protocol) : Bool × StackParser :=
  let p := StackParser.validate_packet M proto_first s.cursor
  (p != Protocol.END, { s with proto := p })

/-- `StackParser::protocol()`: const accessor for the current protocol. -/
def StackParser.protocol (s : StackParser) : Protocol :=
  s.proto

/-- The switch of `StackParser::next`: dispatch `next` of the current
module (identify candidate, advance past the header); in the default case
the candidate stays `END` and the cursor is untouched. -/
def StackParser.nextStep (M : Modules) (s : StackParser) : Protocol × Cursor :=
  match s.proto with
  | Protocol.L2_ETHERNET => M.ethernet.step s.cursor
  | Protocol.L2_VLAN => M.vlan.step s.cursor
  | Protocol.L3_IPv4 => M.ipv4.step s.cursor
  | Protocol.L4_GRE => M.gre.step s.cursor
  | Protocol.L4_UDP => M.udp.step s.cursor
  | Protocol.L4_SCTP => M.sctp.step s.cursor
  | Protocol.END => (Protocol.END, s.cursor)

/-- `StackParser::next()`: dispatch `next` of the current module, then
`proto = validate_packet(next_proto)` and return `proto`.  Returns the
protocol paired with the updated parser. -/
def StackParser.next (M : Modules) (s : StackParser) : Protocol × StackParser :=
  let st := StackParser.nextStep M s
  let p := StackParser.validate_packet M st.1 st.2
  (p, { proto := p, cursor := st.2 })

/-- Iterated `next()`: the parser state after `n` calls. -/
def StackParser.nextIter (M : Modules) (n : Nat) (s : StackParser) : StackParser :=
  match n with
  | 0 => s
  | Nat.succ k => StackParser.nextIter M k (StackParser.next M s).2

/-- `StackParser::packet()`: `available_area()`, the view of the current
packet in the stack. -/
def StackParser.packet (s : StackParser) : MCArea :=
  Cursor.available_area s.cursor

/-- The private `header(unsigned&)` helper: dispatches `length_header` of
the module and returns the head pointer; in the default case it
returns null and leaves the out-length at its initial 0. -/
def StackParser.headerRaw (M : Modules) (s : StackParser) : Option Nat × Nat :=
  match s.proto with
  | Protocol.L2_ETHERNET => (some s.cursor.position, M.ethernet.length_header s.cursor)
  | Protocol.L2_VLAN => (some s.cursor.position, M.vlan.length_header s.cursor)
  | Protocol.L3_IPv4 => (some s.cursor.position, M.ipv4.length_header s.cursor)
  | Protocol.L4_GRE => (some s.cursor.position, M.gre.length_header s.cursor)
  | Protocol.L4_UDP => (some s.cursor.position, M.udp.length_header s.cursor)
  | Protocol.L4_SCTP => (some s.cursor.position, M.sctp.length_header s.cursor)
  | Protocol.END => (none, 0)

/-- `StackParser::header()`: the current protocol header as an `MCArea`
built from the private helper. -/
def StackParser.header (M : Modules) (s : StackParser) : MCArea :=
  let hr := StackParser.headerRaw M s
  { ptr := hr.1, length := hr.2 }

/-- The private `payload(unsigned&)` helper: dispatches `length_payload` of
the module, computes the header length via the `header` helper and
returns `m_head + hdr_len`; in the default case it returns null with the
out-length at its initial 0. -/
def StackParser.payloadRaw (M : Modules) (s : StackParser) : Option Nat × Nat :=
  match s.proto with
  | Protocol.L2_ETHERNET =>
      (some (s.cursor.position + (StackParser.headerRaw M s).2), M.ethernet.length_payload s.cursor)
  | Protocol.L2_VLAN =>
      (some (s.cursor.position + (StackParser.headerRaw M s).2), M.vlan.length_payload s.cursor)
  | Protocol.L3_IPv4 =>
      (some (s.cursor.position + (StackParser.headerRaw M s).2), M.ipv4.length_payload s.cursor)
  | Protocol.L4_GRE =>
      (some (s.cursor.position + (StackParser.headerRaw M s).2), M.gre.length_payload s.cursor)
  | Protocol.L4_UDP =>
      (some (s.cursor.position + (StackParser.headerRaw M s).2), M.udp.length_payload s.cursor)
  | Protocol.L4_SCTP =>
      (some (s.cursor.position + (StackParser.headerRaw M s).2), M.sctp.length_payload s.cursor)
  | Protocol.END => (none, 0)

/-- `StackParser::payload()`: the current protocol payload as an `MCArea`
built from the private helper. -/
def StackParser.payload (M : Modules) (s : StackParser) : MCArea :=
  let pr := StackParser.payloadRaw M s
  { ptr := pr.1, length := pr.2 }

end StackIp

namespace IntrusiveMapModel

/-- The intrusive hook fields carried by a map value: next pointer (a node
index, `none` for null), the key, and the linked flag.  Keys are modelled
as `Nat` (the template instantiates `K` with an integral key). -/
structure Node where
  im_next : Option Nat
  im_key : Nat
  im_linked : Bool
  deriving DecidableEq, Repr

/-- An `IntrusiveMap::Bucket`: the head pointer of the singly linked chain
and the element counter of the bucket. -/
structure Bucket where
  list : Option Nat
  size : Nat
  deriving DecidableEq, Repr

/-- The map state: the node heap (values are identified by their index in
`nodes`), the bucket array, and the global element counter. -/
structure MapState where
  nodes : List Node
  buckets : List Bucket
  elements : Nat
  deriving DecidableEq, Repr

/-- `IntrusiveMap::sanity_check(value)`: the value must not already be
linked. -/
def sanity_check (value : Node) : Bool :=
  !value.im_linked

/-- The chained key walk of `IntrusiveMap::find(bucket, key)` as a list of
the keys stored along a bucket chain, bounded by fuel (the C++ loop
follows `im_next` until null; on the acyclic chains the map maintains, a
fuel of `nodes.length` covers the whole chain). -/
def chainKeys (nodes : List Node) (fuel : Nat) (head : Option Nat) : List Nat :=
  match fuel, head with
  | 0, _ => []
  | _, none => []
  | Nat.succ k, some i =>
    match nodes[i]? with
    | none => []
    | some nd => nd.im_key :: chainKeys nodes k nd.im_next

/-- `IntrusiveMap::find(bucket, key)`: walk the chain until a node with an
equal key is found or the chain ends, returning the node index. -/
def findAux (nodes : List Node) (key : Nat) (fuel : Nat) (head : Option Nat) : Option Nat :=
  match fuel, head with
  | 0, _ => none
  | _, none => none
  | Nat.succ k, some i =>
    match nodes[i]? with
    | none => none
    | some nd => if nd.im_key = key then some i else findAux nodes key k nd.im_next

/-- `IntrusiveMap::link_front(bucket, key, value)`: point `im_next` of the value
at the old chain head, mark it linked with the key, make it the
new head, and bump the bucket size and the element counter. -/
def link_front (m : MapState) (index : Nat) (key : Nat) (vid : Nat) : MapState :=
  match m.buckets[index]? with
  | none => m
  | some bucket =>
    { nodes := m.nodes.set vid { im_next := bucket.list, im_key := key, im_linked := true },
      buckets := m.buckets.set index { list := some vid, size := bucket.size + 1 },
      elements := m.elements + 1 }

/-- `IntrusiveMap::put(key, value)`: if the sanity check passes and no
node with an equal key is in the bucket of the key, link the value at the chain
front and return true; otherwise return false with no change.  The value
is identified by its heap index `vid`; an index outside the heap or an
empty bucket array models a C++ precondition violation and returns false
unchanged. -/
def put (m : MapState) (key : Nat) (vid : Nat) : Bool × MapState :=
  match m.nodes[vid]? with
  | none => (false, m)
  | some value =>
    if sanity_check value then
      let index := key % m.buckets.length
      match m.buckets[index]? with
      | none => (false, m)
      | some bucket =>
        if findAux m.nodes key m.nodes.length bucket.list = none then
          (true, link_front m index key vid)
        else
          (false, m)
    else
      (false, m)

end IntrusiveMapModel

namespace IntrusiveMapModel

/-- The head pointer of bucket `i`. -/
def bucketHead (m : MapState) (i : Nat) : Option Nat :=
  match m.buckets[i]? with
  | some b => b.list
  | none => none

/-- The element counter of bucket `i`. -/
def bucketSize (m : MapState) (i : Nat) : Nat :=
  match m.buckets[i]? with
  | some b => b.size
  | none => 0

/-- The keys stored along the chain of bucket `i`. -/
def bucketKeys (m : MapState) (i : Nat) : List Nat :=
  chainKeys m.nodes m.nodes.length (bucketHead m i)

/-- The bucket-chain search finds nothing exactly when the key is absent
from the keys along the chain. -/
theorem findAux_eq_none_iff (nodes : List Node) (key : Nat) (fuel : Nat) (head : Option Nat) :
    findAux nodes key fuel head = none ↔ key ∉ chainKeys nodes fuel head := by
  induction fuel generalizing head with
  | zero => simp [findAux, chainKeys]
  | succ k ih =>
    cases head with
    | none => simp [findAux, chainKeys]
    | some i =>
      cases h : nodes[i]? with
      | none => simp [findAux, chainKeys, h]
      | some nd =>
        by_cases hk : nd.im_key = key
        · simp [findAux, chainKeys, h, hk]
        · simp only [findAux, chainKeys, h, if_neg hk, List.mem_cons]
          rw [ih]
          constructor
          · intro ha hor
            rcases hor with heq | hmem
            · exact hk heq.symm
            · exact ha hmem
          · intro ha hmem
            exact ha (Or.inr hmem)

end IntrusiveMapModel

namespace StackIp

/-- A concrete protocol module to instantiate the general theorems on
concrete inputs: a fixed 14-byte header, validation requiring the header
to fit, the rest as payload, IPv4 as next protocol. -/
def sampleModule : ProtocolModule :=
  { validate := fun c => decide (14 ≤ c.remaining),
    length_header := fun _ => 14,
    length_payload := fun c => c.remaining - 14,
    next_protocol := fun _ => Protocol.L3_IPv4 }

/-- A concrete module assignment for all six protocols. -/
def sampleModules : Modules :=
  { ethernet := sampleModule, vlan := sampleModule, ipv4 := sampleModule,
    gre := sampleModule, udp := sampleModule, sctp := sampleModule }

/-- A concrete parser sitting at an Ethernet layer over a 100-byte
buffer. -/
def sampleEth : StackParser :=
  { proto := Protocol.L2_ETHERNET, cursor := { position := 0, remaining := 100 } }

/-- A concrete parser in the END state over a 100-byte buffer. -/
def sampleEnd : StackParser :=
  { proto := Protocol.END, cursor := { position := 0, remaining := 100 } }

/-- Claim C1: `parse(first_protocol)` validates the packet for
`first_protocol` at the current cursor position; on successful validation
the current protocol becomes `first_protocol`, on failed validation it
becomes `END`, and the returned boolean is true iff the resulting current
protocol is not `END`. -/
theorem parse_validates_and_reports (M : Modules) (s : StackParser) (p : Protocol) :
    (moduleValidate M p s.cursor = true → ((StackParser.parse M s p).2).proto = p) ∧
    (moduleValidate M p s.cursor = false → ((StackParser.parse M s p).2).proto = Protocol.END) ∧
    ((StackParser.parse M s p).1 = true ↔ ((StackParser.parse M s p).2).proto ≠ Protocol.END) := by
  refine ⟨?_, ?_, ?_⟩
  · intro h
    simp [StackParser.parse, StackParser.validate_packet, h]
  · intro h
    simp [StackParser.parse, StackParser.validate_packet, h]
  · by_cases h : moduleValidate M p s.cursor = true
    · simp [StackParser.parse, StackParser.validate_packet, h, bne_iff_ne]
    · simp only [Bool.not_eq_true] at h
      simp [StackParser.parse, StackParser.validate_packet, h]

/-- Witness for C1 at a concrete parser: validation of Ethernet succeeds
on a 100-byte buffer, so the current protocol becomes Ethernet. -/
theorem parse_validates_and_reports_witness :
    ((StackParser.parse sampleModules sampleEth Protocol.L2_ETHERNET).2).proto =
      Protocol.L2_ETHERNET :=
  (parse_validates_and_reports sampleModules sampleEth Protocol.L2_ETHERNET).1 (by decide)

/-- Claim C2: `next()` returns exactly the protocol it stores, so
`protocol()` right after agrees: when the candidate next protocol
validates at the advanced cursor the candidate is stored and returned,
otherwise (a failed validation or an unrecognized candidate) `END` is
stored and returned. -/
theorem next_returns_stored_protocol (M : Modules) (s : StackParser) :
    ((StackParser.next M s).1 = StackParser.protocol (StackParser.next M s).2) ∧
    (moduleValidate M (StackParser.nextStep M s).1 (StackParser.nextStep M s).2 = true →
      (StackParser.next M s).1 = (StackParser.nextStep M s).1) ∧
    (moduleValidate M (StackParser.nextStep M s).1 (StackParser.nextStep M s).2 = false →
      (StackParser.next M s).1 = Protocol.END) := by
  refine ⟨rfl, ?_, ?_⟩ <;> intro h <;>
    simp [StackParser.next, StackParser.validate_packet, h]

/-- Witness for C2 at a concrete parser: from the Ethernet layer the
candidate IPv4 validates, so next() returns IPv4. -/
theorem next_returns_stored_protocol_witness :
    (StackParser.next sampleModules sampleEth).1 =
      (StackParser.nextStep sampleModules sampleEth).1 :=
  (next_returns_stored_protocol sampleModules sampleEth).2.1 (by decide)

/-- Claim C3: END is terminal — from a parser whose current protocol is
END, next() returns END and leaves the parser state (protocol and cursor)
unchanged, and the state persists under any number of repeated next()
calls. -/
theorem end_is_terminal (M : Modules) (s : StackParser) (h : s.proto = Protocol.END) :
    (StackParser.next M s).1 = Protocol.END ∧
    (StackParser.next M s).2 = s ∧
    ∀ n : Nat, StackParser.nextIter M n s = s := by
  have h1 : (StackParser.next M s).1 = Protocol.END := by
    simp [StackParser.next, StackParser.nextStep, h, StackParser.validate_packet, moduleValidate]
  have h2 : (StackParser.next M s).2 = s := by
    cases s with
    | mk proto cursor =>
      cases h
      simp [StackParser.next, StackParser.nextStep, StackParser.validate_packet, moduleValidate]
  refine ⟨h1, h2, ?_⟩
  intro n
  induction n with
  | zero => rfl
  | succ k ih =>
    calc StackParser.nextIter M (k + 1) s
        = StackParser.nextIter M k (StackParser.next M s).2 := rfl
      _ = StackParser.nextIter M k s := by rw [h2]
      _ = s := ih

/-- Witness for C3 at a concrete END-state parser. -/
theorem end_is_terminal_witness :
    (StackParser.next sampleModules sampleEnd).2 = sampleEnd :=
  (end_is_terminal sampleModules sampleEnd rfl).2.1

/-- Claim C4: when the current protocol is one of the six supported
protocols, the header and payload views are contiguous and
non-overlapping: the payload view starts exactly at the start of
the header view plus the length of the header view. -/
theorem header_payload_contiguous (M : Modules) (s : StackParser)
    (h : s.proto ≠ Protocol.END) :
    ∃ b : Nat, (StackParser.header M s).ptr = some b ∧
      (StackParser.payload M s).ptr = some (b + (StackParser.header M s).length) := by
  refine ⟨s.cursor.position, ?_, ?_⟩ <;> cases hp : s.proto <;>
    simp_all [StackParser.header, StackParser.payload, StackParser.headerRaw,
      StackParser.payloadRaw]

/-- Witness for C4 at a concrete Ethernet-layer parser. -/
theorem header_payload_contiguous_witness :
    ∃ b : Nat, (StackParser.header sampleModules sampleEth).ptr = some b ∧
      (StackParser.payload sampleModules sampleEth).ptr =
        some (b + (StackParser.header sampleModules sampleEth).length) :=
  header_payload_contiguous sampleModules sampleEth (by decide)

/-- Claim C5: advance(length) fails with OutOfBounds and no state change
whenever length exceeds remaining; on success it adds length to position
and subtracts it from remaining, so position + remaining == buffer_length
is preserved by every advance. -/
theorem advance_bounds_and_invariant (c : Cursor) (len B : Nat) :
    (len > c.remaining → Cursor.advance c len = (AdvanceResult.OutOfBounds, c)) ∧
    (len ≤ c.remaining →
      (Cursor.advance c len).1 = AdvanceResult.Ok ∧
      (Cursor.advance c len).2.position = c.position + len ∧
      (Cursor.advance c len).2.remaining = c.remaining - len) ∧
    (c.position + c.remaining = B →
      (Cursor.advance c len).2.position + (Cursor.advance c len).2.remaining = B) := by
  refine ⟨?_, ?_, ?_⟩
  · intro h
    simp [Cursor.advance, h]
  · intro h
    simp [Cursor.advance, Nat.not_lt.mpr h]
  · intro h
    by_cases hl : c.remaining < len
    · simp [Cursor.advance, hl, h]
    · simp [Cursor.advance, hl]
      omega

/-- Witness for C5: advancing 14 bytes with 10 remaining is rejected with
no state change. -/
theorem advance_bounds_and_invariant_witness :
    Cursor.advance { position := 0, remaining := 10 } 14 =
      (AdvanceResult.OutOfBounds, { position := 0, remaining := 10 }) :=
  (advance_bounds_and_invariant { position := 0, remaining := 10 } 14 10).1 (by decide)

/-- `StackParser::protocol()` as a state transformer: a const method,
returning the tag with the parser unchanged. -/
def StackParser.protocolOp (s : StackParser) : Protocol × StackParser :=
  (s.proto, s)

/-- Modelled from the spec: candidate-protocol validation as a state
transformer — the module `validate` must not advance the cursor, so the
parser state passes through unchanged. -/
def StackParser.validateOp (M : Modules) (s : StackParser) (p : Protocol) :
    Protocol × StackParser :=
  (StackParser.validate_packet M p s.cursor, s)

/-- Modelled from the spec: the next-protocol identification step of
next() as a state transformer — a peek that leaves the cursor
unchanged. -/
def StackParser.identifyOp (M : Modules) (s : StackParser) : Protocol × StackParser :=
  ((StackParser.nextStep M s).1, s)

/-- The header length next() advances past: `length_header` of the current
module at the current cursor (0 in the END state, where no
module is dispatched). -/
def StackParser.currentHeaderLength (M : Modules) (s : StackParser) : Nat :=
  match s.proto with
  | Protocol.L2_ETHERNET => M.ethernet.length_header s.cursor
  | Protocol.L2_VLAN => M.vlan.length_header s.cursor
  | Protocol.L3_IPv4 => M.ipv4.length_header s.cursor
  | Protocol.L4_GRE => M.gre.length_header s.cursor
  | Protocol.L4_UDP => M.udp.length_header s.cursor
  | Protocol.L4_SCTP => M.sctp.length_header s.cursor
  | Protocol.END => 0

/-- Claim C6: protocol(), candidate validation and next-protocol
identification never change the parser state, parse() never moves the
cursor, and the cursor after next() is exactly the result of advancing
the old cursor by the current header length — the single point of cursor
movement. -/
theorem peek_ops_preserve_cursor (M : Modules) (s : StackParser) (p : Protocol) :
    (StackParser.protocolOp s).2 = s ∧
    (StackParser.validateOp M s p).2 = s ∧
    (StackParser.identifyOp M s).2 = s ∧
    ((StackParser.parse M s p).2).cursor = s.cursor ∧
    ((StackParser.next M s).2).cursor =
      (Cursor.advance s.cursor (StackParser.currentHeaderLength M s)).2 := by
  refine ⟨rfl, rfl, rfl, rfl, ?_⟩
  cases hp : s.proto <;>
    simp [StackParser.next, StackParser.nextStep, StackParser.currentHeaderLength, hp,
      ProtocolModule.step, Cursor.advance]

/-- `StackParser::header()` as a state transformer: a const method. -/
def StackParser.headerOp (M : Modules) (s : StackParser) : MCArea × StackParser :=
  (StackParser.header M s, s)

/-- `StackParser::payload()` as a state transformer: a const method. -/
def StackParser.payloadOp (M : Modules) (s : StackParser) : MCArea × StackParser :=
  (StackParser.payload M s, s)

/-- `StackParser::packet()` as a state transformer: a const method. -/
def StackParser.packetOp (s : StackParser) : MCArea × StackParser :=
  (StackParser.packet s, s)

/-- Claim C8: the four observers leave the parser state unchanged, and a
repeated call (with no intervening next()/parse()) returns a result
identical to that of the first call. -/
theorem observers_idempotent (M : Modules) (s : StackParser) :
    (StackParser.protocolOp s).2 = s ∧
    (StackParser.headerOp M s).2 = s ∧
    (StackParser.payloadOp M s).2 = s ∧
    (StackParser.packetOp s).2 = s ∧
    (StackParser.protocolOp (StackParser.protocolOp s).2).1 = (StackParser.protocolOp s).1 ∧
    (StackParser.headerOp M (StackParser.headerOp M s).2).1 = (StackParser.headerOp M s).1 ∧
    (StackParser.payloadOp M (StackParser.payloadOp M s).2).1 = (StackParser.payloadOp M s).1 ∧
    (StackParser.packetOp (StackParser.packetOp s).2).1 = (StackParser.packetOp s).1 :=
  ⟨rfl, rfl, rfl, rfl, rfl, rfl, rfl, rfl⟩

/-- Claim C9: in the END state header() and payload() return the null
view (null pointer, zero length) while packet() still returns the view of
the remaining buffer. -/
theorem end_views_null (M : Modules) (s : StackParser) (h : s.proto = Protocol.END) :
    StackParser.header M s = { ptr := none, length := 0 } ∧
    StackParser.payload M s = { ptr := none, length := 0 } ∧
    StackParser.packet s = { ptr := some s.cursor.position, length := s.cursor.remaining } := by
  refine ⟨?_, ?_, rfl⟩ <;>
    simp [StackParser.header, StackParser.payload, StackParser.headerRaw,
      StackParser.payloadRaw, h]

/-- Witness for C9 at a concrete END-state parser. -/
theorem end_views_null_witness :
    StackParser.header sampleModules sampleEnd = { ptr := none, length := 0 } :=
  (end_views_null sampleModules sampleEnd rfl).1

/-- Claim C7: a freshly constructed parser has current protocol END, so
protocol() returns END and a next() call on it returns END. -/
theorem fresh_parser_is_end (B : Nat) (M : Modules) :
    (StackParser.construct B).proto = Protocol.END ∧
    StackParser.protocol (StackParser.construct B) = Protocol.END ∧
    (StackParser.next M (StackParser.construct B)).1 = Protocol.END := by
  refine ⟨rfl, rfl, ?_⟩
  simp [StackParser.next, StackParser.nextStep, StackParser.construct,
    StackParser.validate_packet, moduleValidate]

end StackIp

namespace IntrusiveMapModel

/-- Claim C10: put(key, value) returns false with the map unchanged iff
the node is already linked or an equal key is in the bucket of the key;
otherwise it links the node at the bucket front (im_next pointing at the
old head, im_linked set, im_key set to the key), bumps the bucket size and
the element count by one, and returns true. -/
theorem put_characterization (m : MapState) (key vid : Nat)
    (hb : 0 < m.buckets.length) (hv : vid < m.nodes.length) :
    ((put m key vid).1 = false ↔
      (m.nodes[vid].im_linked = true ∨
        key ∈ bucketKeys m (key % m.buckets.length))) ∧
    ((put m key vid).1 = false → (put m key vid).2 = m) ∧
    ((put m key vid).1 = true →
      (put m key vid).2.elements = m.elements + 1 ∧
      (put m key vid).2.nodes[vid]? =
        some { im_next := bucketHead m (key % m.buckets.length), im_key := key,
               im_linked := true } ∧
      bucketHead (put m key vid).2 (key % m.buckets.length) = some vid ∧
      bucketSize (put m key vid).2 (key % m.buckets.length) =
        bucketSize m (key % m.buckets.length) + 1) := by
  have hidx : key % m.buckets.length < m.buckets.length := Nat.mod_lt key hb
  have hnode : m.nodes[vid]? = some m.nodes[vid] := List.getElem?_eq_getElem hv
  have hbucket : m.buckets[key % m.buckets.length]? =
      some m.buckets[key % m.buckets.length] := List.getElem?_eq_getElem hidx
  have hhead : bucketHead m (key % m.buckets.length) =
      m.buckets[key % m.buckets.length].list := by
    simp [bucketHead, hbucket]
  by_cases hl : m.nodes[vid].im_linked = true
  · have hput : put m key vid = (false, m) := by
      simp [put, hnode, sanity_check, hl]
    refine ⟨?_, ?_, ?_⟩
    · simp [hput, hl]
    · intro _
      simp [hput]
    · intro hc
      rw [hput] at hc
      simp at hc
  · have hl' : m.nodes[vid].im_linked = false := by
      simpa using hl
    by_cases hf : findAux m.nodes key m.nodes.length
        m.buckets[key % m.buckets.length].list = none
    · have hput : put m key vid =
          (true, link_front m (key % m.buckets.length) key vid) := by
        simp [put, hnode, sanity_check, hl', hbucket, hf]
      have hnotmem : key ∉ bucketKeys m (key % m.buckets.length) := by
        rw [bucketKeys, hhead]
        exact (findAux_eq_none_iff m.nodes key m.nodes.length _).mp hf
      have hlink : link_front m (key % m.buckets.length) key vid =
          { nodes := m.nodes.set vid
              { im_next := m.buckets[key % m.buckets.length].list,
                im_key := key, im_linked := true },
            buckets := m.buckets.set (key % m.buckets.length)
              { list := some vid,
                size := m.buckets[key % m.buckets.length].size + 1 },
            elements := m.elements + 1 } := by
        simp [link_front, hbucket]
      refine ⟨?_, ?_, ?_⟩
      · rw [hput]
        simp [hl', hnotmem]
      · intro hc
        rw [hput] at hc
        simp at hc
      · intro _
        rw [hput, hlink]
        refine ⟨rfl, ?_, ?_, ?_⟩
        · rw [hhead]
          exact List.getElem?_set_self hv
        · simp [bucketHead, List.getElem?_set_self hidx]
        · simp [bucketSize, hbucket, List.getElem?_set_self hidx]
    · have hput : put m key vid = (false, m) := by
        simp [put, hnode, sanity_check, hl', hbucket, hf]
      have hmem : key ∈ bucketKeys m (key % m.buckets.length) := by
        rw [bucketKeys, hhead]
        by_contra hnm
        exact hf ((findAux_eq_none_iff m.nodes key m.nodes.length _).mpr hnm)
      refine ⟨?_, ?_, ?_⟩
      · simp [hput, hmem]
      · intro _
        simp [hput]
      · intro hc
        rw [hput] at hc
        simp at hc

/-- A concrete one-bucket map with one unlinked node, for the witness. -/
def exampleMap : MapState :=
  { nodes := [{ im_next := none, im_key := 0, im_linked := false }],
    buckets := [{ list := none, size := 0 }],
    elements := 0 }

/-- Witness for C10: inserting key 5 into the example map succeeds and
bumps the element count. -/
theorem put_characterization_witness :
    (put exampleMap 5 0).2.elements = exampleMap.elements + 1 :=
  ((put_characterization exampleMap 5 0 (by decide) (by decide)).2.2 (by decide)).1

end IntrusiveMapModel
